import Mathlib

/-!
# A shallow embedding of the batch-execution Autograd interface

This file embeds `pennylane/interfaces/batch/autograd.py` — the tape
parameter classification (`get_trainable_params`), the `ArrayBox` unwrapping
(`_unwrap_arraybox`, `convert_to_numpy`), the `UnwrapTape` scope, the batch
executor (`batch_execute` / `_batch_execute`) and the custom VJP rule
(`vjp` / `grad_fn`) — and, at interface level, the nuclear-repulsion energy
of the Hartree-Fock module, and settles the behavioural properties stated
about them.

Scalars are a type parameter `α` (concrete statements below instantiate it
with `ℤ` or `ℚ`); a Python value seen by this layer is modelled by `Val α`.
-/

set_option maxRecDepth 4000

/-- A Python value as seen by the interface layer: `pynone` is Python's
`None`; `num x` is a plain numeric value carrying no `requires_grad`
attribute; `arr xs` is a plain array value (e.g. the output of
`np.tensordot` outside any differentiation trace); `tensor x g` is a
`pennylane.numpy` tensor whose `requires_grad` attribute is `g`; `box v` is
an Autograd `ArrayBox` whose `_value` field holds `v`. -/
inductive Val (α : Type) where
  | pynone : Val α
  | num : α → Val α
  | arr : List α → Val α
  | tensor : α → Bool → Val α
  | box : Val α → Val α
  deriving DecidableEq, Repr

/-- `getattr(p, "requires_grad", False)` (autograd.py line 68): only an
`np.tensor` carries the attribute; every other value defaults to `False`. -/
def requires_grad_attr {α : Type} : Val α → Bool
  | Val.tensor _ g => g
  | _ => false

/-- `isinstance(p, ArrayBox)` (autograd.py line 68). -/
def is_arraybox {α : Type} : Val α → Bool
  | Val.box _ => true
  | _ => false

/-- A quantum tape as used by this interface: the flat ordered parameter
list (the values collected from `tape._par_info` in parameter-index order)
and the mutable `trainable_params` index set, kept as an increasing
duplicate-free list (Python keeps a set of small nonnegative integers). -/
structure Tape (α : Type) where
  params : List (Val α)
  trainable_params : List Nat
  deriving DecidableEq, Repr

/-- `get_trainable_params` (autograd.py lines 31-71): collect the tape's
parameters in order, then return the set of indices `idx` with
`getattr(p, "requires_grad", False) or isinstance(p, ArrayBox)`, together
with the collected parameter list. -/
def get_trainable_params {α : Type} (tape : Tape α) : List Nat × List (Val α) :=
  let params := tape.params
  (((params.enum).filter fun p => requires_grad_attr p.2 || is_arraybox p.2).map Prod.fst,
   params)

/-- `_unwrap_arraybox(arraybox, max_depth, _n)` (autograd.py lines 74-83).
`md` is `max_depth`; the last argument is the internal counter `_n`.  The
function reads `arraybox._value`; on a value that is not an `ArrayBox` this
raises `AttributeError`, modelled as `Except.error ()`.  When the unwrapped
value is itself an `ArrayBox` the function recurses with `_n + 1`. -/
def _unwrap_arraybox {α : Type} (md : Option Nat) : Val α → Nat → Except Unit (Val α)
  | Val.box w, n =>
      if md = some n then Except.ok (Val.box w)
      else
        match w with
        | Val.box _ => _unwrap_arraybox md w (n + 1)
        | _ => Except.ok w
  | v, n => if md = some n then Except.ok v else Except.error ()

/-- The fully-unwrapping call `_unwrap_arraybox(t)` made by
`convert_to_numpy` (autograd.py line 94): with `max_depth=None` the chain of
`_value` references is followed to the first non-`ArrayBox` value
(`unwrap_arraybox_none_eq` below ties this to `_unwrap_arraybox`). -/
def unwrap_box_chain {α : Type} : Val α → Val α
  | Val.box w => unwrap_box_chain w
  | v => v

/-- `convert_to_numpy` (autograd.py lines 86-98): an `np.tensor` is replaced
by its plain value (`t.numpy()`), an `ArrayBox` is unwrapped through
`_unwrap_arraybox`, and any other value passes through unchanged. -/
def convert_to_numpy {α : Type} (tensors : List (Val α)) : List (Val α) :=
  tensors.map fun t =>
    match t with
    | Val.tensor x _ => Val.num x
    | Val.box w => unwrap_box_chain w
    | v => v

/-- `UnwrapTape.__enter__` (autograd.py lines 131-136): writes the computed
trainable set into `tape.trainable_params`, saves the original parameters,
and overwrites the full parameter list with the `convert_to_numpy` values
(`set_parameters(..., trainable_only=False)` replaces every position).
Returns the mutated tape together with the saved originals. -/
def UnwrapTape_enter {α : Type} (tape : Tape α) : Tape α × List (Val α) :=
  let r := get_trainable_params tape
  ({ params := convert_to_numpy r.2, trainable_params := r.1 }, r.2)

/-- `UnwrapTape.__exit__` (autograd.py lines 138-139): restores the full
original parameter list via `set_parameters(self._original_params,
trainable_only=False)`.  The exception arguments are ignored, so the exit
action is identical on normal and exceptional exit.  Note that
`tape.trainable_params` is not written back. -/
def UnwrapTape_exit {α : Type} (tape : Tape α) (original_params : List (Val α)) : Tape α :=
  { tape with params := original_params }

/-- One full scoped-unwrap block around a tape: enter, then exit. -/
def UnwrapTape_scope {α : Type} (tape : Tape α) : Tape α :=
  let e := UnwrapTape_enter tape
  UnwrapTape_exit e.1 e.2

/-- `_batch_execute` (autograd.py lines 237-263): every tape is unwrapped
(the `ExitStack` enters one `UnwrapTape` scope per tape), the device is
called once on all unwrapped tapes, and the scopes are released.
`ExitStack` unwinds on the error path as well, so the tapes are restored
whether the device call succeeds or raises, and a device error propagates
to the caller untranslated.  The value is the device result together with
the tapes as the scopes leave them. -/
def _batch_execute {α ε ρ : Type} (tapes : List (Tape α))
    (device : List (Tape α) → Except ε ρ) : Except ε ρ × List (Tape α) :=
  let entered := tapes.map UnwrapTape_enter
  (device (entered.map Prod.fst),
   entered.map fun p => UnwrapTape_exit p.1 p.2)

/-- `batch_execute` (autograd.py lines 142-234): fills in the default
gradient function, builds the `autograd.builtins` parameter structure (pure
autodiff bookkeeping with no effect on the forward value), and delegates to
`_batch_execute`.  There is no validation of `tapes`: an empty list is
passed to the device as-is. -/
def batch_execute {α ε ρ : Type} (tapes : List (Tape α))
    (device : List (Tape α) → Except ε ρ) : Except ε ρ × List (Tape α) :=
  _batch_execute tapes device

/-- The default of the `_n` argument of `batch_execute` (autograd.py line
142, `_n=1`): the nesting-depth counter starts at 1. -/
def default_nesting : Nat := 1

/-- The post-processing function returned by a gradient transform: it maps
the result list of the generated shift tapes to one Jacobian column. -/
abbrev PostFn (α : Type) := List (List α) → List α

/-- The pluggable `gradient_fn(tape, idx) -> (gradient_tapes, fn)`. -/
abbrev GradientTransform (α : Type) := Tape α → Nat → List (Tape α) × PostFn α

/-- The recursive batch executor as `grad_fn` sees it: nesting depth and
gradient tapes in, one flat result per executed tape out (autograd.py line
321 calls `batch_execute(gradient_tapes, device, ..., _n=_n + 1)`; the
first argument here is that `_n` value). -/
abbrev Executor (α : Type) := Nat → List (Tape α) → List (List α)

/-- The generation loop of `grad_fn` (autograd.py lines 307-319): for every
tape, and for `idx` ranging over `enumerate(t.trainable_params)` — so `idx`
is the 0-based enumeration counter, not the set element — call
`gradient_fn(t, idx)`; append the shift-tape count to `reshape_info`,
extend `gradient_tapes`, and append the post-processing function to the
tape's group in `processing_fns`. -/
def build_gradient_tapes {α : Type} (gradient_fn : GradientTransform α) :
    List (Tape α) → List Nat × List (Tape α) × List (List (PostFn α))
  | [] => ([], [], [])
  | t :: ts =>
      let calls := (t.trainable_params.enum).map fun p => gradient_fn t p.1
      let rest := build_gradient_tapes gradient_fn ts
      (calls.map (fun c => c.1.length) ++ rest.1,
       (calls.map Prod.fst).flatten ++ rest.2.1,
       calls.map Prod.snd :: rest.2.2)

/-- The trace of the `gradient_fn` invocations made by the loop above: the
argument pairs `(t, idx)` in call order. -/
def gradient_fn_calls {α : Type} (tapes : List (Tape α)) : List (Tape α × Nat) :=
  tapes.flatMap fun t => (t.trainable_params.enum).map fun p => (t, p.1)

/-- `np.tensordot(dy_row, jac, axes=[[0], [0]])` after
`jac = np.reshape(np.transpose(np.stack(jac)), [-1, num_params])`
(autograd.py lines 341-344), expressed on the list of Jacobian columns:
entry `j` of the contraction is the dot product of the flattened upstream
row with column `j`.  (NumPy would raise on ragged columns; `zipWith`
truncates instead — none of the properties below depend on that case.) -/
def tensordot_cols {α : Type} [Mul α] [AddCommMonoid α] (dy_row : List α)
    (cols : List (List α)) : List α :=
  cols.map fun col => (List.zipWith (· * ·) dy_row col).sum

/-- The inner slicing loop of `grad_fn` (autograd.py lines 333-339):
`zip(processing_fns[t], reshape_info)` pairs the tape's own post-processing
functions with the global `reshape_info` list taken from its head (the zip
truncates to the shorter list), slices `res = results[start : start +
res_len]`, advances `start` by `res_len`, and applies the function to the
slice. -/
def jac_loop {α : Type} (results : List (List α)) :
    List (PostFn α) → List Nat → Nat → List (List α) × Nat
  | [], _, start => ([], start)
  | _ :: _, [], start => ([], start)
  | fn :: fns, res_len :: lens, start =>
      let res := (results.drop start).take res_len
      let rest := jac_loop results fns lens (start + res_len)
      (fn res :: rest.1, rest.2)

/-- The per-tape loop of `grad_fn` (autograd.py lines 322-344):
`zip(range(len(tapes)), dy)` pairs tapes with upstream-gradient rows,
truncating to the shorter sequence; a tape with no trainable parameters
contributes the `None` sentinel and consumes no results; otherwise the
Jacobian columns come from `jac_loop` — with `start` persisting across
tapes — and are contracted against the flattened `dy` row. -/
def vjp_loop {α : Type} [Mul α] [AddCommMonoid α] (results : List (List α))
    (reshape_info : List Nat) :
    List (Tape α × List (PostFn α)) → List (List α) → Nat → List (Val α) × Nat
  | [], _, start => ([], start)
  | _ :: _, [], start => ([], start)
  | (t, fns) :: rest, d :: dys, start =>
      if t.trainable_params.length = 0 then
        let r := vjp_loop results reshape_info rest dys start
        (Val.pynone :: r.1, r.2)
      else
        let j := jac_loop results fns reshape_info start
        let r := vjp_loop results reshape_info rest dys j.2
        (Val.arr (tensordot_cols d j.1) :: r.1, r.2)

/-- The `vjp` list accumulated by `grad_fn` before its final unwrap
(autograd.py lines 303-344): generate the gradient tapes, execute them —
recursively through `batch_execute` at nesting `n + 1` — and reduce. -/
def vjp_list {α : Type} [Mul α] [AddCommMonoid α] (gradient_fn : GradientTransform α)
    (execute : Executor α) (n : Nat) (tapes : List (Tape α)) (dy : List (List α)) :
    List (Val α) :=
  let built := build_gradient_tapes gradient_fn tapes
  let results := execute (n + 1) built.2.1
  (vjp_loop results built.1 (tapes.zip built.2.2) dy 0).1

/-- `grad_fn` (autograd.py lines 303-346): the accumulated `vjp` list is
returned through `[_unwrap_arraybox(v, max_depth=_n) for v in vjp]`; the
first `AttributeError` aborts the comprehension and propagates. -/
def grad_fn {α : Type} [Mul α] [AddCommMonoid α] (gradient_fn : GradientTransform α)
    (execute : Executor α) (n : Nat) (tapes : List (Tape α)) (dy : List (List α)) :
    Except Unit (List (Val α)) :=
  (vjp_list gradient_fn execute n tapes dy).mapM fun v => _unwrap_arraybox (some n) v 0

/-- Number of `ArrayBox` layers wrapped around a value. -/
def boxDepth {α : Type} : Val α → Nat
  | Val.box w => boxDepth w + 1
  | _ => 0

/-- Strip (up to) `n` `ArrayBox` layers from a value. -/
def stripBoxes {α : Type} : Nat → Val α → Val α
  | 0, v => v
  | n + 1, Val.box w => stripBoxes n w
  | _ + 1, v => v

/-- Euclidean distance between two points, as used by the
nuclear-repulsion sum. -/
noncomputable def dist3 (p q : ℝ × ℝ × ℝ) : ℝ :=
  Real.sqrt ((p.1 - q.1) ^ 2 + (p.2.1 - q.2.1) ^ 2 + (p.2.2 - q.2.2) ^ 2)

/-- Pairwise Coulomb sum over a list of `(charge, centre)` pairs:
`Σ over i < j of Z_i * Z_j / d_ij`. -/
noncomputable def nuclear_energy_sum : List (ℝ × (ℝ × ℝ × ℝ)) → ℝ
  | [] => 0
  | (z, c) :: rest =>
      (rest.map fun zc => z * zc.1 / dist3 c zc.2).sum + nuclear_energy_sum rest

/-- Modelled from the spec: `nuclear_energy(nuclear_charges, coordinates)`
of the Hartree-Fock module (`pennylane/hf/hartree_fock.py` is not among the
sources here — only its tests are): the "pairwise nuclear Coulomb repulsion
(`sum over atom pairs of Z_i*Z_j / distance_ij`)". -/
noncomputable def nuclear_energy (charges : List ℝ) (coords : List (ℝ × ℝ × ℝ)) : ℝ :=
  nuclear_energy_sum (charges.zip coords)

/-- With `max_depth=None` (the `convert_to_numpy` call site),
`_unwrap_arraybox` on an `ArrayBox` follows the whole `_value` chain. -/
theorem unwrap_arraybox_none_eq {α : Type} (w : Val α) :
    ∀ n : Nat, _unwrap_arraybox none (Val.box w) n = Except.ok (unwrap_box_chain w) := by
  induction w with
  | box u ih => intro n; simpa [_unwrap_arraybox, unwrap_box_chain] using ih (n + 1)
  | pynone => intro n; rfl
  | num x => intro n; rfl
  | arr xs => intro n; rfl
  | tensor x g => intro n; rfl

/-- `_unwrap_arraybox` with `max_depth = k + m` entered at counter `k`
strips exactly `m` box layers when at least `m` are present. -/
theorem unwrap_arraybox_strip {α : Type} :
    ∀ (m : Nat) (v : Val α) (k : Nat), m ≤ boxDepth v →
      _unwrap_arraybox (some (k + m)) v k = Except.ok (stripBoxes m v) := by
  intro m
  induction m with
  | zero =>
      intro v k _
      cases v <;> simp [_unwrap_arraybox, stripBoxes]
  | succ m ih =>
      intro v k h
      cases v with
      | box w =>
          cases w with
          | box u =>
              have hd : m ≤ boxDepth (Val.box u) := by
                simp only [boxDepth] at h ⊢; omega
              have hk : k + (m + 1) = (k + 1) + m := by omega
              have hrec := ih (Val.box u) (k + 1) hd
              simp only [_unwrap_arraybox, stripBoxes]
              rw [if_neg (by simp), hk]
              exact hrec
          | pynone =>
              have hm : m = 0 := by simp only [boxDepth] at h; omega
              subst hm
              simp only [_unwrap_arraybox, stripBoxes]
              rw [if_neg (by simp)]
          | num x =>
              have hm : m = 0 := by simp only [boxDepth] at h; omega
              subst hm
              simp only [_unwrap_arraybox, stripBoxes]
              rw [if_neg (by simp)]
          | arr xs =>
              have hm : m = 0 := by simp only [boxDepth] at h; omega
              subst hm
              simp only [_unwrap_arraybox, stripBoxes]
              rw [if_neg (by simp)]
          | tensor x g =>
              have hm : m = 0 := by simp only [boxDepth] at h; omega
              subst hm
              simp only [_unwrap_arraybox, stripBoxes]
              rw [if_neg (by simp)]
      | pynone => simp [boxDepth] at h
      | num x => simp [boxDepth] at h
      | arr xs => simp [boxDepth] at h
      | tensor x g => simp [boxDepth] at h

/-- `processing_fns` has one group per input tape. -/
theorem build_processing_fns_length {α : Type} (gf : GradientTransform α) :
    ∀ tapes : List (Tape α), ((build_gradient_tapes gf tapes).2.2).length = tapes.length := by
  intro tapes
  induction tapes with
  | nil => rfl
  | cons t ts ih => simp [build_gradient_tapes, ih]

/-- The per-tape loop produces one entry per `(tape, dy-row)` pair of the
truncating zip. -/
theorem vjp_loop_length {α : Type} [Mul α] [AddCommMonoid α]
    (results : List (List α)) (ri : List Nat) :
    ∀ (pairs : List (Tape α × List (PostFn α))) (dys : List (List α)) (start : Nat),
      ((vjp_loop results ri pairs dys start).1).length = min pairs.length dys.length := by
  intro pairs
  induction pairs with
  | nil => intro dys start; simp [vjp_loop]
  | cons p rest ih =>
      intro dys start
      cases dys with
      | nil => simp [vjp_loop]
      | cons d ds =>
          obtain ⟨t, fns⟩ := p
          by_cases h0 : t.trainable_params.length = 0 <;>
            · simp [vjp_loop, h0, ih]
              omega

/-- Claim C1 (counterexample): for the tape with the single plain parameter
`1` and `trainable_params = {0}`, the scoped-unwrap round trip returns the
tape with `trainable_params = {}` — `__exit__` does not restore the
trainable set, so the pre-entry state is not recovered. -/
theorem unwrapTape_trainable_not_restored :
    UnwrapTape_scope ({ params := [Val.num (1 : ℤ)], trainable_params := [0] } : Tape ℤ)
      = { params := [Val.num 1], trainable_params := [] } ∧
    ({ params := [Val.num (1 : ℤ)], trainable_params := [] } : Tape ℤ)
      ≠ { params := [Val.num 1], trainable_params := [0] } := by
  decide

/-- Claim C1 (amended): after a scoped-unwrap block exits — the exit action
is one and the same function on normal and exceptional exit — the tape's
full parameter list is restored exactly to its pre-entry values, while
`trainable_params` is left at the trainable classification computed on
entry rather than its pre-entry value. -/
theorem unwrapTape_roundtrip_amended {α : Type} (t : Tape α) :
    (UnwrapTape_scope t).params = t.params ∧
    (UnwrapTape_scope t).trainable_params = (get_trainable_params t).1 :=
  ⟨rfl, rfl⟩

/-- Claim C7: for the parameter list
`[tensor(0.1, requires_grad=True), 0.2, tensor(0.3, requires_grad=True)]`,
the trainable classification returns the set `{0, 2}`, and
`convert_to_numpy` yields the plain values `[0.1, 0.2, 0.3]`, the
non-trainable middle value passing through unchanged. -/
theorem get_trainable_params_unwrap_example :
    (get_trainable_params ({ params := [Val.tensor ((1 : ℚ)/10) true, Val.num (2/10),
        Val.tensor (3/10) true], trainable_params := [0, 1, 2] } : Tape ℚ)).1 = [0, 2] ∧
    convert_to_numpy [Val.tensor ((1 : ℚ)/10) true, Val.num (2/10), Val.tensor (3/10) true]
      = [Val.num ((1 : ℚ)/10), Val.num (2/10), Val.num (3/10)] :=
  ⟨rfl, rfl⟩

/-- Claim C3 (counterexample): for a tape whose trainable-parameter set is
`{2}`, the single backward-pass call is `gradient_fn(t, 0)` — the second
argument `0` is the enumeration counter and is not an element of the
trainable set `{2}`. -/
theorem gradient_fn_called_with_position_not_index :
    gradient_fn_calls [(⟨[Val.num 0, Val.num 0, Val.tensor 1 true], [2]⟩ : Tape ℤ)]
      = [((⟨[Val.num 0, Val.num 0, Val.tensor 1 true], [2]⟩ : Tape ℤ), 0)] ∧
    (0 : Nat) ∉ (⟨[Val.num (0 : ℤ), Val.num 0, Val.tensor 1 true], [2]⟩ : Tape ℤ).trainable_params := by
  decide

/-- Claim C3 (amended): in the backward pass `gradient_fn` is called exactly
once per (tape, trainable-parameter) pair, tapes in input order and, within
a tape, pairs in trainable-set iteration order, but the second argument is
the 0-based ordinal `0 .. k-1` of the pair in that iteration
(`enumerate(t.trainable_params)` yields the counter), not the parameter
index drawn from the trainable set; `reshape_info` and `gradient_tapes` are
accumulated over exactly that call sequence. -/
theorem gradient_fn_calls_once_per_pair_with_position {α : Type}
    (gf : GradientTransform α) (tapes : List (Tape α)) :
    gradient_fn_calls tapes
      = tapes.flatMap (fun t => (List.range t.trainable_params.length).map fun i => (t, i)) ∧
    (build_gradient_tapes gf tapes).1
      = (gradient_fn_calls tapes).map (fun c => ((gf c.1 c.2).1).length) ∧
    (build_gradient_tapes gf tapes).2.1
      = (gradient_fn_calls tapes).flatMap fun c => (gf c.1 c.2).1 := by
  have henum : ∀ t : Tape α, ((t.trainable_params.enum).map fun p => (t, p.1))
      = (List.range t.trainable_params.length).map fun i => (t, i) := by
    intro t
    rw [show (fun p : Nat × Nat => (t, p.1)) = (fun i => (t, i)) ∘ Prod.fst from rfl,
      ← List.map_map, List.enum_map_fst]
  refine ⟨?_, ?_, ?_⟩
  · simp only [gradient_fn_calls, henum]
  · induction tapes with
    | nil => rfl
    | cons t ts ih =>
        simp only [build_gradient_tapes, gradient_fn_calls, List.flatMap_cons,
          List.map_append, List.map_map, Function.comp_def, ih, gradient_fn_calls]
  · induction tapes with
    | nil => rfl
    | cons t ts ih =>
        simp only [build_gradient_tapes, gradient_fn_calls, List.flatMap_cons,
          List.flatMap_append, List.flatMap_map, List.map_map, Function.comp_def, ih]
        rw [← List.flatMap_def]

/-- Claim C2: backward pass with two tapes of one trainable parameter each,
where `gradient_fn` generates 1 shift tape for the first tape's parameter
and 2 for the second's, so `reshape_info = [1, 2]` and the executed results
are `[[3], [5], [7]]`.  The post-processing function is the flattening of
its slice, and the upstream rows are `[1]`: the code hands the second
tape's function the single result `[5]` (slice length `reshape_info[0] =
1`, because each tape's functions are zipped against the global
`reshape_info` from its head) instead of that tape's own recorded count of
2 results `[5], [7]`, producing `[arr [3], arr [5]]`. -/
theorem grad_fn_slice_uses_global_reshape_info :
    (build_gradient_tapes
        (fun t _ => (if t.params = [Val.num (1 : ℤ)] then [t] else [t, t],
                     fun rs => rs.flatten))
        [{ params := [Val.num 1], trainable_params := [0] },
         { params := [Val.num 2], trainable_params := [0] }]).1 = [1, 2] ∧
    vjp_list
        (fun t _ => (if t.params = [Val.num (1 : ℤ)] then [t] else [t, t],
                     fun rs => rs.flatten))
        (fun _ _ => [[3], [5], [7]]) 1
        [{ params := [Val.num 1], trainable_params := [0] },
         { params := [Val.num 2], trainable_params := [0] }]
        [[1], [1]]
      = [Val.arr [3], Val.arr [5]] := by
  exact ⟨by decide, by decide⟩

/-- Claim C4: for a batch consisting of one tape with zero trainable
parameters and `dy = [[1]]`, the accumulated `vjp` list is the claimed
`[None]`, but `grad_fn` then evaluates `_unwrap_arraybox(None,
max_depth=1)`, which reads `None._value` and raises `AttributeError` — so
`grad_fn` raises instead of returning the per-tape list. -/
theorem grad_fn_errors_on_none_sentinel :
    vjp_list (fun (t : Tape ℤ) _ => ([t], fun _ => []))
        (fun _ _ => []) 1 [{ params := [Val.num 1], trainable_params := [] }] [[1]]
      = [Val.pynone] ∧
    grad_fn (fun (t : Tape ℤ) _ => ([t], fun _ => []))
        (fun _ _ => []) 1 [{ params := [Val.num 1], trainable_params := [] }] [[1]]
      = Except.error () :=
  ⟨by decide, rfl⟩

/-- Claim C5: the nesting counter starts at the default `_n = 1`; the
gradient rule's recursive batch execution is consulted exactly at depth
`n + 1` (two executors agreeing there give `grad_fn` identical results);
and the final unwrap with `max_depth = n` strips exactly `n` layers of
`ArrayBox` nesting from a value carrying at least `n` layers. -/
theorem grad_fn_nesting_depth :
    default_nesting = 1 ∧
    (∀ (α : Type) (i1 : Mul α) (i2 : AddCommMonoid α) (gf : GradientTransform α)
        (e1 e2 : Executor α) (n : Nat) (tapes : List (Tape α)) (dy : List (List α)),
      (∀ ts, e1 (n + 1) ts = e2 (n + 1) ts) →
        @grad_fn α i1 i2 gf e1 n tapes dy = @grad_fn α i1 i2 gf e2 n tapes dy) ∧
    (∀ (α : Type) (n : Nat) (v : Val α), n ≤ boxDepth v →
      _unwrap_arraybox (some n) v 0 = Except.ok (stripBoxes n v)) := by
  refine ⟨rfl, ?_, ?_⟩
  · intro α i1 i2 gf e1 e2 n tapes dy h
    unfold grad_fn vjp_list
    simp only [h]
  · intro α n v h
    simpa using unwrap_arraybox_strip n v 0 h

/-- Concrete instance of Claim C5: executors that agree at depth 2 give the
same order-1 backward result, and the depth-2 unwrap of a doubly boxed
array yields the bare array. -/
theorem grad_fn_nesting_depth_witness :
    grad_fn (fun t _ => ([t], fun _ => [(1 : ℤ)]))
        (fun n _ => if n = 2 then [] else [[1]]) 1
        [(⟨[Val.num 1], [0]⟩ : Tape ℤ)] [[1]]
      = grad_fn (fun t _ => ([t], fun _ => [(1 : ℤ)])) (fun _ _ => []) 1
        [(⟨[Val.num 1], [0]⟩ : Tape ℤ)] [[1]] ∧
    _unwrap_arraybox (some 2) (Val.box (Val.box (Val.arr [(5 : ℤ)]))) 0
      = Except.ok (Val.arr [5]) :=
  ⟨grad_fn_nesting_depth.2.1 ℤ _ _ _ _ _ 1 _ _ (fun ts => rfl),
   grad_fn_nesting_depth.2.2 ℤ 2 _ (by decide)⟩

/-- Claim C6 (counterexample): with an empty tape list, `batch_execute`
raises no invalid-input error — it calls the device on the empty list and
returns whatever the device returns. -/
theorem batch_execute_empty_succeeds :
    (batch_execute ([] : List (Tape ℤ)) (fun _ => (Except.ok 0 : Except Unit ℕ))).1
      = Except.ok 0 :=
  rfl

/-- Claim C6 (amended): `batch_execute` performs no emptiness validation —
with empty `tapes` it calls `device.batch_execute` on the empty list and
returns its result — and any error raised by `device.batch_execute`
propagates to the caller without translation. -/
theorem batch_execute_error_propagation {α ε ρ : Type}
    (device : List (Tape α) → Except ε ρ) :
    (batch_execute ([] : List (Tape α)) device).1 = device [] ∧
    ∀ (tapes : List (Tape α)) (e : ε),
      device ((tapes.map UnwrapTape_enter).map Prod.fst) = Except.error e →
      (batch_execute tapes device).1 = Except.error e :=
  ⟨rfl, fun _ _ h => h⟩

/-- Concrete instance of Claim C6 (amended): a device that raises is
propagated untranslated through `batch_execute`. -/
theorem batch_execute_error_propagation_witness :
    (batch_execute [(⟨[], []⟩ : Tape ℤ)]
        (fun _ => (Except.error 7 : Except ℕ ℕ))).1 = Except.error 7 :=
  (batch_execute_error_propagation fun _ => (Except.error 7 : Except ℕ ℕ)).2
    [(⟨[], []⟩ : Tape ℤ)] 7 rfl

/-- Claim C8: the forward result of `batch_execute` is a function of the
tapes' parameter values alone — two tape lists with equal parameter lists
(their `trainable_params` may differ) given to the same deterministic
device produce identical result lists. -/
theorem batch_execute_function_of_params {α ε ρ : Type}
    (device : List (Tape α) → Except ε ρ) (ts1 ts2 : List (Tape α))
    (h : ts1.map Tape.params = ts2.map Tape.params) :
    (batch_execute ts1 device).1 = (batch_execute ts2 device).1 := by
  have hmap : ∀ us : List (Tape α),
      (us.map UnwrapTape_enter).map Prod.fst
        = (us.map Tape.params).map fun ps =>
            (⟨convert_to_numpy ps,
              ((ps.enum.filter fun p => requires_grad_attr p.2 || is_arraybox p.2).map
                Prod.fst)⟩ : Tape α) := by
    intro us
    rw [List.map_map, List.map_map]
    rfl
  show device ((ts1.map UnwrapTape_enter).map Prod.fst)
      = device ((ts2.map UnwrapTape_enter).map Prod.fst)
  rw [hmap ts1, hmap ts2, h]

/-- Concrete instance of Claim C8: same parameter values, different
`trainable_params`, same device — identical forward results. -/
theorem batch_execute_function_of_params_witness :
    (batch_execute [(⟨[Val.num (1 : ℤ)], []⟩ : Tape ℤ)]
        (fun ts => (Except.ok (ts.map Tape.params) : Except Unit (List (List (Val ℤ)))))).1
      = (batch_execute [(⟨[Val.num (1 : ℤ)], [0]⟩ : Tape ℤ)]
        (fun ts => (Except.ok (ts.map Tape.params) : Except Unit (List (List (Val ℤ)))))).1 :=
  batch_execute_function_of_params
    (fun ts => (Except.ok (ts.map Tape.params) : Except Unit (List (List (Val ℤ)))))
    [⟨[Val.num 1], []⟩] [⟨[Val.num 1], [0]⟩] rfl

/-- Claim C10 (counterexample): two tapes with one trainable parameter
each, but `dy` has a single row.  The truncating zip does build a
single-entry gradient list, but `grad_fn` then raises an
`AttributeError` in its final `_unwrap_arraybox` pass over the plain
entry, so it neither "raises no error" nor returns the one-entry list. -/
theorem grad_fn_short_dy_error :
    (vjp_list (fun (t : Tape ℤ) _ => ([t], fun rs => rs.flatten))
        (fun _ ts => ts.map fun _ => [1]) 1
        [⟨[Val.tensor 1 true], [0]⟩, ⟨[Val.tensor 2 true], [0]⟩]
        [[1]]).length = 1 ∧
    grad_fn (fun (t : Tape ℤ) _ => ([t], fun rs => rs.flatten))
        (fun _ ts => ts.map fun _ => [1]) 1
        [⟨[Val.tensor 1 true], [0]⟩, ⟨[Val.tensor 2 true], [0]⟩]
        [[1]]
      = Except.error () :=
  ⟨by decide, rfl⟩

/-- Claim C10 (amended): the tape/`dy` pairing is a positional zip
truncated to the shorter sequence, with no length validation: whenever
`dy` has at most as many rows as there are tapes, the accumulated per-tape
gradient list has exactly `len(dy)` entries, the remaining tapes'
gradients silently dropped (the final unwrap pass then fails on plain or
`None` entries before the truncated list is returned). -/
theorem vjp_list_truncated_to_dy_length {α : Type} [Mul α] [AddCommMonoid α]
    (gf : GradientTransform α) (e : Executor α) (n : Nat)
    (tapes : List (Tape α)) (dy : List (List α)) (h : dy.length ≤ tapes.length) :
    (vjp_list gf e n tapes dy).length = dy.length := by
  unfold vjp_list
  rw [vjp_loop_length, List.length_zip, build_processing_fns_length]
  omega

/-- Concrete instance of Claim C10 (amended): two tapes, one `dy` row, one
accumulated gradient entry. -/
theorem vjp_list_truncated_to_dy_length_witness :
    (vjp_list (fun (t : Tape ℤ) _ => ([t], fun rs => rs.flatten))
        (fun _ ts => ts.map fun _ => [1]) 1
        [⟨[Val.num 1], [0]⟩, ⟨[Val.num 2], [0]⟩]
        [[1]]).length = 1 :=
  vjp_list_truncated_to_dy_length (fun (t : Tape ℤ) _ => ([t], fun rs => rs.flatten))
    (fun _ ts => ts.map fun _ => [1]) 1
    [⟨[Val.num 1], [0]⟩, ⟨[Val.num 2], [0]⟩] [[1]] (by decide)

/-- Claim C9: the pairwise nuclear Coulomb repulsion `Σ Z_i Z_j / d_ij`
evaluates to exactly `1` for H-H at bond length 1 (`1*1/1`) and to exactly
`4.5` for H-F at bond length 2 (`1*9/2`). -/
theorem nuclear_energy_scenarios :
    nuclear_energy [1, 1] [(0, 0, 0), (0, 0, 1)] = 1 ∧
    nuclear_energy [1, 9] [(0, 0, 0), (0, 0, 2)] = 4.5 := by
  have h1 : dist3 0 (0, 0, 1) = 1 := by
    simp only [dist3, Prod.fst_zero, Prod.snd_zero]
    rw [show ((0 : ℝ) - 0) ^ 2 + ((0 : ℝ) - 0) ^ 2 + ((0 : ℝ) - 1) ^ 2 = 1 from by norm_num,
      Real.sqrt_one]
  have h2 : dist3 0 (0, 0, 2) = 2 := by
    simp only [dist3, Prod.fst_zero, Prod.snd_zero]
    rw [show ((0 : ℝ) - 0) ^ 2 + ((0 : ℝ) - 0) ^ 2 + ((0 : ℝ) - 2) ^ 2 = 2 ^ 2 from by norm_num,
      Real.sqrt_sq (by norm_num : (0 : ℝ) ≤ 2)]
  constructor
  · simp [nuclear_energy, nuclear_energy_sum, List.zip_cons_cons, h1]
  · simp [nuclear_energy, nuclear_energy_sum, List.zip_cons_cons, h2]
    norm_num
